import Mathlib

set_option maxHeartbeats 1000000

/-!
Verification of the VoiceUpdate update/sync pipeline (update_manager.py,
model_sync.py, auto_updater.py) against its natural-language specification.

The Python code is shallowly embedded: pure helpers become Lean functions on
`List Char` / `String` / `List Nat`; the file system, the network and the hash
library are passed in explicitly as oracle values, and stateful operations
become functions from an explicit state to a new state plus a trace of emitted
events.
-/

namespace VoiceUpdate

/-- Numeric value of an all-digit string, as Python `int` computes it on such
input (left fold, base 10). -/
def digitsToNat (l : List Char) : Nat :=
  l.foldl (fun acc c => acc * 10 + (c.toNat - 48)) 0

/-- Model of Python `int(s)` on the inputs relevant to version segments: an
optional sign followed by one or more decimal digits parses; anything else
raises `ValueError`, modelled as `none`.  (Surrounding whitespace and digit
group underscores, which Python also tolerates, never occur in version
strings and are not modelled.) -/
def pyInt : List Char → Option Int
  | [] => none
  | c :: rest =>
    if c = '-' then
      if !rest.isEmpty && rest.all Char.isDigit then some (-(digitsToNat rest : Int)) else none
    else if c = '+' then
      if !rest.isEmpty && rest.all Char.isDigit then some ((digitsToNat rest : Int)) else none
    else if (c :: rest).all Char.isDigit then some ((digitsToNat (c :: rest) : Int)) else none

/-- Python `s.split('.')` on the character list of `s`: dot-separated pieces,
with `[]` giving `[[]]` just as `"".split('.') == ['']`. -/
def splitDot : List Char → List (List Char)
  | [] => [[]]
  | c :: cs =>
    if c = '.' then [] :: splitDot cs
    else
      match splitDot cs with
      | [] => [[c]]
      | s :: rest => (c :: s) :: rest

/-- Python `s.lstrip('v')`: drop every leading `'v'` character. -/
def pyLstripV (l : List Char) : List Char := l.dropWhile (fun c => c = 'v')

/-- Python string `<` : lexicographic comparison by code point. -/
def pyStrLt : List Char → List Char → Bool
  | [], [] => false
  | [], _ :: _ => true
  | _ :: _, [] => false
  | a :: xs, b :: ys =>
    if a.toNat < b.toNat then true
    else if b.toNat < a.toNat then false
    else pyStrLt xs ys

/-- The per-index loop of `UpdateChecker.compare_versions` (update_manager.py
lines 101-114) run on two equal-length padded segment lists: compare
numerically when both segments parse as `int`; when either `int(...)` raises,
fall back to Python string comparison of the raw segments; on a tie move to
the next index; `0` when the loop finishes. -/
def cmpSegs : List (List Char) → List (List Char) → Int
  | x :: xs, y :: ys =>
    match pyInt x, pyInt y with
    | some m, some n =>
      if m > n then 1 else if m < n then -1 else cmpSegs xs ys
    | _, _ =>
      if pyStrLt y x then 1 else if pyStrLt x y then -1 else cmpSegs xs ys
  | _, _ => 0

/-- `UpdateChecker.compare_versions` (update_manager.py lines 89-119): strip
leading `'v'` characters, split each version on dots, right-pad the shorter
segment list with `"0"` segments to a common length, then run the comparison
loop.  No statement of the body can raise (the inner `int` failures are
caught and turned into string comparison), so the outer `except: return 0`
is unreachable and is not modelled. -/
def UpdateChecker.compare_versions (version1 version2 : String) : Int :=
  let v1 := splitDot (pyLstripV version1.data)
  let v2 := splitDot (pyLstripV version2.data)
  let maxLen := max v1.length v2.length
  cmpSegs (v1 ++ List.replicate (maxLen - v1.length) ['0'])
    (v2 ++ List.replicate (maxLen - v2.length) ['0'])

/-- The per-index loop of `ModelSyncManager.compare_versions` (model_sync.py
lines 310-316) on two equal-length padded integer lists. -/
def cmpInts : List Int → List Int → Int
  | x :: xs, y :: ys => if x > y then 1 else if x < y then -1 else cmpInts xs ys
  | _, _ => 0

/-- The list comprehension `[int(x) for x in version.split('.')]`: parse every
segment, raising (`none`) as soon as one segment fails to parse. -/
def parseSegs : List (List Char) → Option (List Int)
  | [] => some []
  | x :: xs =>
    match pyInt x, parseSegs xs with
    | some v, some vs => some (v :: vs)
    | _, _ => none

/-- `ModelSyncManager.compare_versions` (model_sync.py lines 299-318): parse
every dot-separated segment with `int` (no `'v'` stripping); if any segment of
either argument fails to parse the whole `try` block raises and the function
returns `0`; otherwise right-pad the shorter integer list with `0` and compare
index by index. -/
def ModelSyncManager.compare_versions (version1 version2 : String) : Int :=
  match parseSegs (splitDot version1.data), parseSegs (splitDot version2.data) with
  | some v1, some v2 =>
    let maxLen := max v1.length v2.length
    cmpInts (v1 ++ List.replicate (maxLen - v1.length) 0)
      (v2 ++ List.replicate (maxLen - v2.length) 0)
  | _, _ => 0

/-- A segment is a nonempty all-digit string. -/
def isDigitSeg (l : List Char) : Bool := !l.isEmpty && l.all Char.isDigit

/-- A well-formed dotted-numeric version string: every dot-separated segment
is a nonempty decimal-digit string. -/
def wfVersion (s : String) : Bool := (splitDot s.data).all isDigitSeg

/-- Integer value of a digit segment. -/
def segVal (l : List Char) : Int := (digitsToNat l : Int)

/-- The integer segment values of a version string. -/
def versionVals (s : String) : List Int := (splitDot s.data).map segVal

/-- Right-pad an integer list with zeros to length `n`. -/
def padZ (l : List Int) (n : Nat) : List Int := l ++ List.replicate (n - l.length) 0

/-- Canonical comparison of two segment-value lists after padding both to
their common maximal length. -/
def cmpV (u v : List Int) : Int :=
  cmpInts (padZ u (max u.length v.length)) (padZ v (max u.length v.length))

/-! ### Properties of the integer comparison loop -/

theorem cmpInts_antisymm : ∀ A B : List Int, cmpInts A B = -(cmpInts B A)
  | [], [] => by simp [cmpInts]
  | [], _ :: _ => by simp [cmpInts]
  | _ :: _, [] => by simp [cmpInts]
  | a :: A, b :: B => by
    have ih := cmpInts_antisymm A B
    simp only [cmpInts]
    split_ifs <;> omega

theorem cmpInts_cons_nonneg {a b : Int} {A B : List Int} :
    0 ≤ cmpInts (a :: A) (b :: B) ↔ (b < a ∨ (a = b ∧ 0 ≤ cmpInts A B)) := by
  simp only [cmpInts]
  split_ifs with h1 h2
  · exact ⟨fun _ => Or.inl h1, fun _ => by omega⟩
  · constructor
    · intro h; omega
    · rintro (h | ⟨h, _⟩) <;> omega
  · constructor
    · intro h; exact Or.inr ⟨by omega, h⟩
    · rintro (h | ⟨_, h⟩)
      · omega
      · exact h

theorem cmpInts_trans : ∀ A B C : List Int, A.length = B.length → B.length = C.length →
    0 ≤ cmpInts A B → 0 ≤ cmpInts B C → 0 ≤ cmpInts A C
  | [], _, C, _, _, _, _ => by cases C <;> simp [cmpInts]
  | _ :: _, [], _, hab, _, _, _ => by simp at hab
  | _ :: _, _ :: _, [], _, hbc, _, _ => by simp at hbc
  | a :: A, b :: B, c :: C, hab, hbc, h1, h2 => by
    have ih := cmpInts_trans A B C (by simpa using hab) (by simpa using hbc)
    rw [cmpInts_cons_nonneg] at h1 h2 ⊢
    rcases h1 with h1 | ⟨hab1, h1⟩ <;> rcases h2 with h2 | ⟨hbc1, h2⟩
    · exact Or.inl (by omega)
    · exact Or.inl (by omega)
    · exact Or.inl (by omega)
    · exact Or.inr ⟨by omega, ih h1 h2⟩

theorem cmpInts_rep_zero : ∀ k : Nat, cmpInts (List.replicate k 0) (List.replicate k 0) = 0
  | 0 => by decide
  | k + 1 => by
    simp only [List.replicate_succ, cmpInts]
    simpa using cmpInts_rep_zero k

theorem cmpInts_append_zeros : ∀ (A B : List Int), A.length = B.length → ∀ k : Nat,
    cmpInts (A ++ List.replicate k 0) (B ++ List.replicate k 0) = cmpInts A B
  | [], [], _, k => by
    simp only [List.nil_append]
    rw [cmpInts_rep_zero]
    decide
  | [], _ :: _, h, _ => by simp at h
  | _ :: _, [], h, _ => by simp at h
  | a :: A, b :: B, h, k => by
    have ih := cmpInts_append_zeros A B (by simpa using h) k
    simp only [List.cons_append, cmpInts, List.append_eq]
    rw [ih]

theorem padZ_length (l : List Int) (n : Nat) (h : l.length ≤ n) : (padZ l n).length = n := by
  simp only [padZ, List.length_append, List.length_replicate]
  omega

theorem padZ_split (l : List Int) (n m : Nat) (hl : l.length ≤ n) (hnm : n ≤ m) :
    padZ l m = padZ l n ++ List.replicate (m - n) 0 := by
  simp only [padZ, List.append_assoc, ← List.replicate_add]
  congr 2
  omega

theorem cmpInts_padZ_eq_cmpV (u v : List Int) (n : Nat) (h : max u.length v.length ≤ n) :
    cmpInts (padZ u n) (padZ v n) = cmpV u v := by
  have hu : u.length ≤ max u.length v.length := le_max_left _ _
  have hv : v.length ≤ max u.length v.length := le_max_right _ _
  rw [padZ_split u (max u.length v.length) n hu h, padZ_split v (max u.length v.length) n hv h,
    cmpInts_append_zeros]
  · rfl
  · rw [padZ_length u _ hu, padZ_length v _ hv]

theorem cmpV_antisymm (u v : List Int) : cmpV u v = -(cmpV v u) := by
  unfold cmpV
  rw [Nat.max_comm v.length u.length]
  exact cmpInts_antisymm _ _

theorem cmpV_trans (u v w : List Int) (h1 : 0 ≤ cmpV u v) (h2 : 0 ≤ cmpV v w) :
    0 ≤ cmpV u w := by
  have hu : u.length ≤ max u.length (max v.length w.length) := le_max_left _ _
  have hv : v.length ≤ max u.length (max v.length w.length) :=
    le_trans (le_max_left _ _) (le_max_right _ _)
  have hw : w.length ≤ max u.length (max v.length w.length) :=
    le_trans (le_max_right _ _) (le_max_right _ _)
  rw [← cmpInts_padZ_eq_cmpV u v _ (max_le hu hv)] at h1
  rw [← cmpInts_padZ_eq_cmpV v w _ (max_le hv hw)] at h2
  rw [← cmpInts_padZ_eq_cmpV u w _ (max_le hu hw)]
  exact cmpInts_trans _ _ _
    (by rw [padZ_length u _ hu, padZ_length v _ hv])
    (by rw [padZ_length v _ hv, padZ_length w _ hw]) h1 h2

/-! ### Reduction of both implementations to `cmpV` on well-formed input -/

theorem pyInt_digitSeg {l : List Char} (h : isDigitSeg l = true) : pyInt l = some (segVal l) := by
  match l with
  | [] => simp [isDigitSeg] at h
  | c :: rest =>
    simp only [isDigitSeg, List.isEmpty_cons, Bool.not_false, Bool.true_and] at h
    have hc : c.isDigit = true := by
      have := List.all_eq_true.mp h c (by simp)
      simpa using this
    have hcm : ¬ c = '-' := by
      intro e; rw [e] at hc; exact absurd hc (by decide)
    have hcp : ¬ c = '+' := by
      intro e; rw [e] at hc; exact absurd hc (by decide)
    simp only [pyInt, if_neg hcm, if_neg hcp, if_pos h]
    rfl

theorem splitDot_ne_nil : ∀ l : List Char, splitDot l ≠ []
  | [] => by simp [splitDot]
  | c :: cs => by
    simp only [splitDot]
    split_ifs
    · simp
    · cases h : splitDot cs <;> simp

theorem pyLstripV_of_wf {s : String} (h : wfVersion s = true) : pyLstripV s.data = s.data := by
  unfold wfVersion at h
  match hs : s.data with
  | [] => rfl
  | c :: cs =>
    rw [hs] at h
    by_cases hc : c = '.'
    · subst hc
      simp [splitDot, isDigitSeg] at h
    · have hd : c.isDigit = true := by
        simp only [splitDot, if_neg hc] at h
        cases hsp : splitDot cs with
        | nil => exact absurd hsp (splitDot_ne_nil cs)
        | cons s0 rest =>
          rw [hsp] at h
          have := List.all_eq_true.mp h (c :: s0) (by simp)
          simp only [isDigitSeg, List.isEmpty_cons, Bool.not_false, Bool.true_and] at this
          have := List.all_eq_true.mp this c (by simp)
          simpa using this
      have hv : ¬ c = 'v' := by
        intro e; rw [e] at hd; exact absurd hd (by decide)
      simp [pyLstripV, List.dropWhile_cons, hv]

theorem cmpSegs_eq_cmpInts : ∀ (L1 L2 : List (List Char)),
    (∀ x ∈ L1, isDigitSeg x = true) → (∀ y ∈ L2, isDigitSeg y = true) →
    cmpSegs L1 L2 = cmpInts (L1.map segVal) (L2.map segVal)
  | [], L2, _, _ => by cases L2 <;> simp [cmpSegs, cmpInts]
  | _ :: _, [], _, _ => by simp [cmpSegs, cmpInts]
  | x :: xs, y :: ys, h1, h2 => by
    have hx := pyInt_digitSeg (h1 x (by simp))
    have hy := pyInt_digitSeg (h2 y (by simp))
    have ih := cmpSegs_eq_cmpInts xs ys (fun a ha => h1 a (by simp [ha]))
      (fun a ha => h2 a (by simp [ha]))
    simp only [cmpSegs, hx, hy, List.map_cons, cmpInts, ih]

theorem parseSegs_digit : ∀ (L : List (List Char)), (∀ x ∈ L, isDigitSeg x = true) →
    parseSegs L = some (L.map segVal)
  | [], _ => rfl
  | x :: xs, h => by
    have hx := pyInt_digitSeg (h x (by simp))
    have ih := parseSegs_digit xs (fun a ha => h a (by simp [ha]))
    simp [parseSegs, hx, ih]

theorem segVal_zero_seg : segVal ['0'] = 0 := by decide

theorem compare_versions_eq_cmpV {a b : String}
    (ha : wfVersion a = true) (hb : wfVersion b = true) :
    UpdateChecker.compare_versions a b = cmpV (versionVals a) (versionVals b) := by
  unfold UpdateChecker.compare_versions
  rw [pyLstripV_of_wf ha, pyLstripV_of_wf hb]
  have ha' : ∀ x ∈ splitDot a.data, isDigitSeg x = true := fun x hx =>
    List.all_eq_true.mp ha x hx
  have hb' : ∀ x ∈ splitDot b.data, isDigitSeg x = true := fun x hx =>
    List.all_eq_true.mp hb x hx
  rw [cmpSegs_eq_cmpInts _ _
    (by
      intro x hx
      rcases List.mem_append.mp hx with h | h
      · exact ha' x h
      · rw [List.eq_of_mem_replicate h]; decide)
    (by
      intro x hx
      rcases List.mem_append.mp hx with h | h
      · exact hb' x h
      · rw [List.eq_of_mem_replicate h]; decide)]
  simp only [List.map_append, List.map_replicate, segVal_zero_seg]
  rw [← cmpInts_padZ_eq_cmpV (versionVals a) (versionVals b)
    (max (splitDot a.data).length (splitDot b.data).length)
    (by simp [versionVals, List.length_map])]
  simp [padZ, versionVals, List.length_map]

theorem ms_compare_versions_eq_cmpV {a b : String}
    (ha : wfVersion a = true) (hb : wfVersion b = true) :
    ModelSyncManager.compare_versions a b = cmpV (versionVals a) (versionVals b) := by
  unfold ModelSyncManager.compare_versions
  have ha' : ∀ x ∈ splitDot a.data, isDigitSeg x = true := fun x hx =>
    List.all_eq_true.mp ha x hx
  have hb' : ∀ x ∈ splitDot b.data, isDigitSeg x = true := fun x hx =>
    List.all_eq_true.mp hb x hx
  rw [parseSegs_digit _ ha', parseSegs_digit _ hb']
  simp only
  rw [← cmpInts_padZ_eq_cmpV (versionVals a) (versionVals b)
    (max ((splitDot a.data).map segVal).length ((splitDot b.data).map segVal).length)
    (by simp [versionVals, List.length_map])]
  simp [padZ, versionVals, List.length_map]

/-! ### Claims C4, C5, C7 -/

/-- C5 counterexample: the spec's test vector `compare("1.2.0","1.2") == Newer`
contradicts its own zero-padding rule — `UpdateChecker.compare_versions`
pads `"1.2"` to `"1.2.0"` and returns `Same` (0), not `Newer` (1). -/
theorem claim_C5_counterexample : UpdateChecker.compare_versions ("1.2.0") ("1.2") ≠ 1 := by
  decide

/-- C5 (amended): under the zero-padding rule, `compare("1.2.0","1.2")` is
`Same` (0); the remaining spec vectors hold: `compare("v2.0.0","1.9.9")` is
`Newer` (1) and `compare("1.0","1.0.0")` is `Same` (0). -/
theorem claim_C5_vectors :
    UpdateChecker.compare_versions ("1.2.0") ("1.2") = 0
    ∧ UpdateChecker.compare_versions ("v2.0.0") ("1.9.9") = 1
    ∧ UpdateChecker.compare_versions ("1.0") ("1.0.0") = 0 := by
  decide

/-- C4 counterexample: the two `compare_versions` implementations disagree on
`("v2.0.0", "1.9.9")`: the application updater strips the leading `v` and
returns 1, while the model-sync manager's `int("v2")` raises, so it returns 0. -/
theorem claim_C4_counterexample :
    ¬ (UpdateChecker.compare_versions ("v2.0.0") ("1.9.9")
        = ModelSyncManager.compare_versions ("v2.0.0") ("1.9.9")) := by
  decide

/-- C4 (amended): the two resolvers agree on every pair of well-formed
dotted-numeric version strings (nonempty decimal-digit segments), where both
implement zero-padded numeric comparison; they differ on marker prefixes and
non-numeric segments, where only the app updater strips `'v'` and falls back
to lexicographic comparison while the model-sync version returns `Same` (0).
Neither raises an error that aborts the caller. -/
theorem claim_C4_agree_on_wf (a b : String)
    (ha : wfVersion a = true) (hb : wfVersion b = true) :
    UpdateChecker.compare_versions a b = ModelSyncManager.compare_versions a b := by
  rw [compare_versions_eq_cmpV ha hb, ms_compare_versions_eq_cmpV ha hb]

/-- C4 witness: a concrete well-formed pair on which the amended claim is
evaluated. -/
theorem claim_C4_witness :
    UpdateChecker.compare_versions ("1.10.0") ("1.9")
      = ModelSyncManager.compare_versions ("1.10.0") ("1.9") :=
  claim_C4_agree_on_wf ("1.10.0") ("1.9") (by decide) (by decide)

/-- C7: over well-formed dotted-numeric version strings, both
`compare_versions` implementations are antisymmetric
(`compare(a,b) = -compare(b,a)`) and transitive on the non-negative side
(`compare(a,b) ≥ 0 → compare(b,c) ≥ 0 → compare(a,c) ≥ 0`). -/
theorem claim_C7_antisymm_trans (a b c : String)
    (ha : wfVersion a = true) (hb : wfVersion b = true) (hc : wfVersion c = true) :
    (UpdateChecker.compare_versions a b = -(UpdateChecker.compare_versions b a)
      ∧ (0 ≤ UpdateChecker.compare_versions a b → 0 ≤ UpdateChecker.compare_versions b c →
          0 ≤ UpdateChecker.compare_versions a c))
    ∧ (ModelSyncManager.compare_versions a b = -(ModelSyncManager.compare_versions b a)
      ∧ (0 ≤ ModelSyncManager.compare_versions a b → 0 ≤ ModelSyncManager.compare_versions b c →
          0 ≤ ModelSyncManager.compare_versions a c)) := by
  rw [compare_versions_eq_cmpV ha hb, compare_versions_eq_cmpV hb ha,
    compare_versions_eq_cmpV hb hc, compare_versions_eq_cmpV ha hc,
    ms_compare_versions_eq_cmpV ha hb, ms_compare_versions_eq_cmpV hb ha,
    ms_compare_versions_eq_cmpV hb hc, ms_compare_versions_eq_cmpV ha hc]
  exact ⟨⟨cmpV_antisymm _ _, cmpV_trans _ _ _⟩, ⟨cmpV_antisymm _ _, cmpV_trans _ _ _⟩⟩

/-- C7 witness: the claim instantiated at concrete well-formed versions. -/
theorem claim_C7_witness :
    UpdateChecker.compare_versions ("2.0.1") ("2.0")
        = -(UpdateChecker.compare_versions ("2.0") ("2.0.1"))
    ∧ ModelSyncManager.compare_versions ("2.0.1") ("2.0")
        = -(ModelSyncManager.compare_versions ("2.0") ("2.0.1")) :=
  ⟨(claim_C7_antisymm_trans ("2.0.1") ("2.0") ("1.9")
      (by decide) (by decide) (by decide)).1.1,
   (claim_C7_antisymm_trans ("2.0.1") ("2.0") ("1.9")
      (by decide) (by decide) (by decide)).2.1⟩

/-! ## TransferEngine and IntegrityVerifier (model_sync.py, ModelDownloader) -/

/-- Behaviour of the remote server for one transfer: the complete remote file
content, and whether the server honours an HTTP `Range` request (when it does
not, it replies with the full content exactly as for a plain GET). -/
structure ServerBehavior where
  honorsRange : Bool
  fullContent : List Nat

/-- `ModelDownloader.download_file` (model_sync.py lines 72-143), restricted
to a transfer that completes without a transport error; the returned value is
the final content of the local file.  Mechanics from the source: when
`resume` is set and a partial file exists, its size becomes `initial_pos` and
a `Range: bytes=initial_pos-` header is sent iff `initial_pos > 0`; the file
is opened in append mode iff `resume` and `initial_pos > 0`, otherwise it is
truncated; every received chunk is appended in order.  The size probe and the
HTML-interstitial handling affect only progress reporting and URL selection
and are not modelled.  The source never inspects the response status code or
content length, so the body it writes is whatever the server sent. -/
def ModelDownloader.download_file (srv : ServerBehavior) (existing : Option (List Nat))
    (resume : Bool) : List Nat :=
  let initialPos := if resume then (match existing with | some c => c.length | none => 0) else 0
  let body :=
    if 0 < initialPos ∧ srv.honorsRange then srv.fullContent.drop initialPos
    else srv.fullContent
  if resume ∧ 0 < initialPos then existing.getD [] ++ body else body

/-- `ModelDownloader.verify_file_integrity` (model_sync.py lines 145-163).
The file system is an `Option (List Nat)` (`none` = file absent), the hash
library is an oracle `sha` mapping content to its hex digest (reading and
hashing an existing file is modelled as never raising).  Python's
`if expected_hash:` tests truthiness, so an empty expected hash behaves
exactly like an absent one and falls back to the size check. -/
def ModelDownloader.verify_file_integrity (sha : List Nat → String)
    (file : Option (List Nat)) (expected : Option String) : Bool :=
  match file with
  | none => false
  | some content =>
    match expected with
    | some h =>
      if h = "" then decide (0 < content.length) else (sha content).toLower == h.toLower
    | none => decide (0 < content.length)

/-- C6: with a (nonempty) expected hash, verification succeeds iff the file
exists and its whole-content digest equals the expected hash up to case; with
no expected hash it succeeds iff the file exists with size strictly greater
than zero. -/
theorem claim_C6_verify_integrity (sha : List Nat → String) (file : Option (List Nat))
    (h : String) (hh : h ≠ "") :
    (ModelDownloader.verify_file_integrity sha file (some h) = true
      ↔ ∃ c, file = some c ∧ (sha c).toLower = h.toLower)
    ∧ (ModelDownloader.verify_file_integrity sha file none = true
      ↔ ∃ c, file = some c ∧ 0 < c.length) := by
  constructor
  · cases file with
    | none => simp [ModelDownloader.verify_file_integrity]
    | some c => simp [ModelDownloader.verify_file_integrity, hh]
  · cases file with
    | none => simp [ModelDownloader.verify_file_integrity]
    | some c => simp [ModelDownloader.verify_file_integrity]

/-- Concrete digest oracle used by the C6 witness. -/
def shaFixture : List Nat → String := fun _ => ("AB")

/-- C6 witness: the claim evaluated at a concrete file and expected hash that
differ only in ASCII case. -/
theorem claim_C6_witness :
    (ModelDownloader.verify_file_integrity shaFixture (some [1, 2]) (some ("ab")) = true
      ↔ ∃ c, (some [1, 2] : Option (List Nat)) = some c
          ∧ (shaFixture c).toLower = ("ab" : String).toLower)
    ∧ (ModelDownloader.verify_file_integrity shaFixture (some [1, 2]) none = true
      ↔ ∃ c, (some [1, 2] : Option (List Nat)) = some c ∧ 0 < c.length) :=
  claim_C6_verify_integrity shaFixture (some [1, 2]) ("ab") (by decide)

/-- C3: evaluation of `download_file` at the failing input.  With a partial
file of K = 5 bytes, a remote total of T = 10 bytes and a server that ignores
the byte-range request, the engine appends the entire 10-byte response to the
partial file: the final file is 15 bytes with bytes 0-4 duplicated, and no
check detects the full-content response.  (When the server honours the range,
resume is correct: the final file is exactly the 10 remote bytes.) -/
theorem claim_C3_resume_corruption :
    ModelDownloader.download_file ⟨false, [0, 1, 2, 3, 4, 5, 6, 7, 8, 9]⟩
        (some [0, 1, 2, 3, 4]) true
      = [0, 1, 2, 3, 4, 0, 1, 2, 3, 4, 5, 6, 7, 8, 9]
    ∧ (ModelDownloader.download_file ⟨false, [0, 1, 2, 3, 4, 5, 6, 7, 8, 9]⟩
        (some [0, 1, 2, 3, 4]) true).length = 15
    ∧ ModelDownloader.download_file ⟨true, [0, 1, 2, 3, 4, 5, 6, 7, 8, 9]⟩
        (some [0, 1, 2, 3, 4]) true
      = [0, 1, 2, 3, 4, 5, 6, 7, 8, 9] := by
  decide

/-! ## ModelSyncManager: backup, install, per-component pipeline -/

/-- The fields of one model registry entry (`config["models"][name]`) that the
download pipeline reads, plus the manager-wide `config["backup_old_models"]`
flag.  `hashCfg = ""` is the registry's default "no hash configured" value. -/
structure ModelCfg where
  url : String
  version : String
  hashCfg : String
  backupEnabled : Bool

/-- Oracle for everything outside the pipeline's control during one
`download_model` run: whether `download_file` succeeds and what it leaves in
the temp file, the hash library, and whether the backup copy and the install
copy/extract raise. -/
structure SyncEnv where
  downloadOk : Bool
  content : List Nat
  sha : List Nat → String
  backupCopyOk : Bool
  installCopyOk : Bool

/-- Durable state touched by the pipeline for one component: the installed
artifact at its destination, the component's entry in the version ledger
(model_versions.json), and the backup snapshots taken so far. -/
structure CompState where
  artifact : Option (List Nat)
  ledgerEntry : Option String
  backups : List (List Nat)
deriving DecidableEq

inductive MEvent where
  | errorEmit
  | backupDone (ok : Bool)
  | downloaded (ok : Bool)
  | verified (ok : Bool)
  | installed (ok : Bool)
  | ledgerWritten (version : String)
  | modelUpdatedEmit
deriving DecidableEq

structure MRun where
  ok : Bool
  state : CompState
  events : List MEvent
deriving DecidableEq

/-- `ModelSyncManager.backup_model` (model_sync.py lines 320-346): a no-op
success when backups are disabled by config or nothing is installed at the
destination; otherwise a timestamped copy of the installed artifact into the
backup area, returning `False` when the copy raises. -/
def ModelSyncManager.backup_model (cfg : ModelCfg) (copyOk : Bool) (s : CompState) :
    Bool × CompState :=
  if cfg.backupEnabled = false then (true, s)
  else
    match s.artifact with
    | none => (true, s)
    | some a => if copyOk then (true, { s with backups := s.backups ++ [a] }) else (false, s)

/-- `ModelSyncManager.install_model` (model_sync.py lines 405-429): copy (file
kind) or extract (zip kind) the downloaded temp file into the destination,
returning `False` when it raises.  A failing install is modelled as leaving
the destination unchanged; no claim in scope depends on the destination's
content after a failed install. -/
def ModelSyncManager.install_model (env : SyncEnv) (content : List Nat) (s : CompState) :
    Bool × CompState :=
  if env.installCopyOk then (true, { s with artifact := some content }) else (false, s)

/-- `ModelSyncManager.download_model` (model_sync.py lines 348-403), the whole
per-component pipeline, faithful to the source's control flow: a missing URL
fails early; `backup_model` is called but its boolean result is DISCARDED
(line 360 is a bare statement, unlike the application path which checks
`create_backup`); a download failure returns `False`;
`verify_file_integrity` runs only when a hash is configured (truthiness of
`model_config.get("hash")`) and its failure aborts the run; then
`install_model` runs, and only after it reports success is the ledger entry
rewritten with the registry version (lines 392-395, `save_model_versions`
modelled as succeeding). -/
def ModelSyncManager.download_model (cfg : ModelCfg) (env : SyncEnv) (s : CompState) : MRun :=
  if cfg.url = "" then ⟨false, s, [.errorEmit]⟩
  else
    let bok := (ModelSyncManager.backup_model cfg env.backupCopyOk s).1
    let s1 := (ModelSyncManager.backup_model cfg env.backupCopyOk s).2
    if env.downloadOk = false then ⟨false, s1, [.backupDone bok, .downloaded false]⟩
    else
      if cfg.hashCfg ≠ "" ∧
          ModelDownloader.verify_file_integrity env.sha (some env.content)
            (some cfg.hashCfg) = false then
        ⟨false, s1, [.backupDone bok, .downloaded true, .verified false]⟩
      else
        let verifyEvs : List MEvent :=
          if cfg.hashCfg = "" then []
          else [.verified (ModelDownloader.verify_file_integrity env.sha (some env.content)
            (some cfg.hashCfg))]
        let inst := ModelSyncManager.install_model env env.content s1
        if inst.1 = false then
          ⟨false, inst.2, [.backupDone bok, .downloaded true] ++ verifyEvs ++ [.installed false]⟩
        else
          ⟨true, { inst.2 with ledgerEntry := some cfg.version },
            [.backupDone bok, .downloaded true] ++ verifyEvs
              ++ [.installed true, .ledgerWritten cfg.version, .modelUpdatedEmit]⟩

theorem backup_model_ledgerEntry (cfg : ModelCfg) (copyOk : Bool) (s : CompState) :
    (ModelSyncManager.backup_model cfg copyOk s).2.ledgerEntry = s.ledgerEntry := by
  obtain ⟨a, l, bks⟩ := s
  cases a with
  | none => simp [ModelSyncManager.backup_model]
  | some x =>
    simp only [ModelSyncManager.backup_model]
    split_ifs <;> rfl

theorem backup_model_artifact (cfg : ModelCfg) (copyOk : Bool) (s : CompState) :
    (ModelSyncManager.backup_model cfg copyOk s).2.artifact = s.artifact := by
  obtain ⟨a, l, bks⟩ := s
  cases a with
  | none => simp [ModelSyncManager.backup_model]
  | some x =>
    simp only [ModelSyncManager.backup_model]
    split_ifs <;> rfl

theorem install_model_ledgerEntry (env : SyncEnv) (content : List Nat) (s : CompState) :
    (ModelSyncManager.install_model env content s).2.ledgerEntry = s.ledgerEntry := by
  unfold ModelSyncManager.install_model
  split_ifs <;> rfl

/-- Scan of an event trace checking that a ledger write only ever occurs
after a successful install has already appeared in the trace. -/
def ledgerAfterInstall : Bool → List MEvent → Bool
  | _, [] => true
  | _, .installed true :: r => ledgerAfterInstall true r
  | seen, .ledgerWritten _ :: r => seen && ledgerAfterInstall seen r
  | seen, _ :: r => ledgerAfterInstall seen r

/-- C1: evaluation of the model path at the failing input.  Backups are
enabled, an artifact is installed, and the backup copy fails, so
`backup_model` returns `False`; `download_model` nevertheless reports overall
success, overwrites the previously installed artifact, and rewrites the
ledger entry — the install attempt is not aborted. -/
theorem claim_C1_backup_failure_not_fatal :
    (ModelSyncManager.backup_model ⟨("http://example/model"), ("2.0.0"), (""), true⟩ false
        ⟨some [1, 2, 3], some ("1.0.0"), []⟩).1 = false
    ∧ (ModelSyncManager.download_model ⟨("http://example/model"), ("2.0.0"), (""), true⟩
        ⟨true, [9, 9, 9], fun _ => (""), false, true⟩
        ⟨some [1, 2, 3], some ("1.0.0"), []⟩).ok = true
    ∧ (ModelSyncManager.download_model ⟨("http://example/model"), ("2.0.0"), (""), true⟩
        ⟨true, [9, 9, 9], fun _ => (""), false, true⟩
        ⟨some [1, 2, 3], some ("1.0.0"), []⟩).state.artifact = some [9, 9, 9]
    ∧ (ModelSyncManager.download_model ⟨("http://example/model"), ("2.0.0"), (""), true⟩
        ⟨true, [9, 9, 9], fun _ => (""), false, true⟩
        ⟨some [1, 2, 3], some ("1.0.0"), []⟩).state.ledgerEntry = some ("2.0.0") := by
  decide

/-- C2 counterexample: with no configured hash the verifier is never
consulted, so a successfully "downloaded" empty temp file is installed and
the ledger entry is rewritten even though the integrity verifier, applied to
that artifact (no expected hash, so the nonempty-size check), rejects it. -/
theorem claim_C2_counterexample :
    ((ModelSyncManager.download_model ⟨("http://example/m"), ("2.0.0"), (""), false⟩
        ⟨true, [], fun _ => (""), true, true⟩
        ⟨some [7], some ("1.0.0"), []⟩).state.ledgerEntry = some ("2.0.0"))
    ∧ ModelDownloader.verify_file_integrity (fun _ => ("")) (some ([] : List Nat)) none = false
    ∧ (some ("1.0.0") : Option String) ≠ some ("2.0.0") := by
  decide

/-- C2 (amended): the ledger entry is rewritten (to the registry version) if
and only if a URL is configured, the download succeeded, the integrity
verifier accepted the artifact whenever an expected hash is configured, and
`install_model` reported success — and every ledger write in the event trace
occurs strictly after a successful install.  When no hash is configured the
verifier is not consulted at all, so the ledger can be updated even for an
artifact the hash-less verifier would reject. -/
theorem claim_C2_ledger_iff_install (cfg : ModelCfg) (env : SyncEnv) (s : CompState) :
    ((ModelSyncManager.download_model cfg env s).state.ledgerEntry =
      if cfg.url ≠ "" ∧ env.downloadOk = true
          ∧ (cfg.hashCfg = "" ∨ ModelDownloader.verify_file_integrity env.sha
              (some env.content) (some cfg.hashCfg) = true)
          ∧ env.installCopyOk = true
      then some cfg.version else s.ledgerEntry)
    ∧ ledgerAfterInstall false (ModelSyncManager.download_model cfg env s).events = true := by
  have hb := backup_model_ledgerEntry cfg env.backupCopyOk s
  by_cases hu : cfg.url = ""
  · simp [ModelSyncManager.download_model, hu, ledgerAfterInstall]
  · by_cases hd : env.downloadOk = false
    · simp [ModelSyncManager.download_model, hu, hd, hb, ledgerAfterInstall]
    · have hd' : env.downloadOk = true := by
        cases h : env.downloadOk
        · exact absurd h hd
        · rfl
      by_cases hv : cfg.hashCfg ≠ "" ∧ ModelDownloader.verify_file_integrity env.sha
          (some env.content) (some cfg.hashCfg) = false
      · have hv3 : ¬ (cfg.hashCfg = "" ∨ ModelDownloader.verify_file_integrity env.sha
            (some env.content) (some cfg.hashCfg) = true) := by
          rcases hv with ⟨h1, h2⟩
          rintro (h3 | h3)
          · exact h1 h3
          · rw [h2] at h3
            exact Bool.false_ne_true h3
        simp [ModelSyncManager.download_model, hu, hd, hv, hb, hv3, ledgerAfterInstall]
      · have hv3 : cfg.hashCfg = "" ∨ ModelDownloader.verify_file_integrity env.sha
            (some env.content) (some cfg.hashCfg) = true := by
          by_cases h1 : cfg.hashCfg = ""
          · exact Or.inl h1
          · right
            cases h2 : ModelDownloader.verify_file_integrity env.sha
              (some env.content) (some cfg.hashCfg)
            · exact absurd ⟨h1, h2⟩ hv
            · rfl
        by_cases hh : cfg.hashCfg = ""
        · by_cases hi : env.installCopyOk
          · simp [ModelSyncManager.download_model, ModelSyncManager.install_model, hu, hd, hd',
              hv, hv3, hi, hh, hb, ledgerAfterInstall]
          · have hi' : env.installCopyOk = false := by
              cases h : env.installCopyOk
              · rfl
              · exact absurd h hi
            simp [ModelSyncManager.download_model, ModelSyncManager.install_model, hu, hd, hd',
              hv, hi', hb, hh, ledgerAfterInstall]
        · have hvt : ModelDownloader.verify_file_integrity env.sha (some env.content)
              (some cfg.hashCfg) = true := by
            rcases hv3 with h | h
            · exact absurd h hh
            · exact h
          by_cases hi : env.installCopyOk
          · simp [ModelSyncManager.download_model, ModelSyncManager.install_model, hu, hd, hd',
              hv, hvt, hi, hh, hb, ledgerAfterInstall]
          · have hi' : env.installCopyOk = false := by
              cases h : env.installCopyOk
              · rfl
              · exact absurd h hi
            simp [ModelSyncManager.download_model, ModelSyncManager.install_model, hu, hd, hd',
              hv, hvt, hi', hb, hh, ledgerAfterInstall]

/-! ## BackupManager retention (update_manager.py UpdateChecker) -/

/-- A backup directory entry: its name and its creation time
(`os.path.getctime`). -/
abbrev Snapshot := String × Nat

/-- The `item.startswith('backup_')` test of `cleanup_old_backups`. -/
def isBackupName (s : String) : Bool := decide (s.data.take 7 = ("backup_").data)

/-- Stable insertion keeping a list sorted by creation time descending. -/
def insertDesc (x : Snapshot) : List Snapshot → List Snapshot
  | [] => [x]
  | y :: ys => if y.2 < x.2 then x :: y :: ys else y :: insertDesc x ys

/-- Stable sort by creation time descending: the effect of
`backups.sort(key=lambda x: x[1], reverse=True)`. -/
def sortCtimeDesc : List Snapshot → List Snapshot
  | [] => []
  | x :: xs => insertDesc x (sortCtimeDesc xs)

/-- `UpdateChecker.cleanup_old_backups` (update_manager.py lines 342-362):
collect the `backup_*` directory entries of the backup area, sort them by
creation time descending, and delete every entry past the first
`keep_count`; the returned list is the set of snapshots remaining on disk.
Deletion uses `shutil.rmtree(..., ignore_errors=True)` inside a blanket
`try/except`, so a deletion failure is silently non-fatal. -/
def UpdateChecker.cleanup_old_backups (keep_count : Nat) (entries : List Snapshot) :
    List Snapshot :=
  (sortCtimeDesc (entries.filter fun e => isBackupName e.1)).take keep_count

/-- Effect of one successful install attempt on the backup store: both the
application path (`UpdateChecker.install_update` calling `create_backup`,
update_manager.py lines 196-234 and 246-248) and the model path
(`ModelSyncManager.download_model` calling `backup_model`) create one new
timestamped `backup_*` snapshot, and neither install path invokes any
pruning: `cleanup_old_backups` has no caller anywhere in the repository, and
model_sync.py contains no pruning at all. -/
def installSnapshotStep (t : Nat) (backups : List Snapshot) : List Snapshot :=
  backups ++ [(("backup_") ++ toString t, t)]

/-- `n` successive successful installs of the same component, with strictly
increasing timestamps starting at `t`. -/
def runInstalls : Nat → Nat → List Snapshot → List Snapshot
  | 0, _, bs => bs
  | n + 1, t, bs => runInstalls n (t + 1) (installSnapshotStep t bs)

theorem insertDesc_perm (x : Snapshot) : ∀ l : List Snapshot, (insertDesc x l).Perm (x :: l)
  | [] => List.Perm.refl _
  | y :: ys => by
    unfold insertDesc
    split_ifs
    · exact List.Perm.refl _
    · exact ((insertDesc_perm x ys).cons y).trans (List.Perm.swap x y ys)

theorem sortCtimeDesc_perm : ∀ l : List Snapshot, (sortCtimeDesc l).Perm l
  | [] => List.Perm.refl _
  | x :: xs =>
    (insertDesc_perm x (sortCtimeDesc xs)).trans ((sortCtimeDesc_perm xs).cons x)

theorem insertDesc_pairwise (x : Snapshot) :
    ∀ l : List Snapshot, l.Pairwise (fun a b => b.2 ≤ a.2) →
      (insertDesc x l).Pairwise (fun a b => b.2 ≤ a.2)
  | [], _ => by simp [insertDesc]
  | y :: ys, h => by
    unfold insertDesc
    rcases List.pairwise_cons.mp h with ⟨hy, hys⟩
    split_ifs with hlt
    · refine List.pairwise_cons.mpr ⟨?_, h⟩
      intro b hb
      rcases List.mem_cons.mp hb with rfl | hb
      · omega
      · have := hy b hb
        omega
    · refine List.pairwise_cons.mpr ⟨?_, insertDesc_pairwise x ys hys⟩
      intro b hb
      have := (insertDesc_perm x ys).mem_iff.mp hb
      rcases List.mem_cons.mp this with rfl | hb'
      · omega
      · exact hy b hb'

theorem sortCtimeDesc_pairwise : ∀ l : List Snapshot,
    (sortCtimeDesc l).Pairwise (fun a b => b.2 ≤ a.2)
  | [] => by simp [sortCtimeDesc]
  | x :: xs => insertDesc_pairwise x (sortCtimeDesc xs) (sortCtimeDesc_pairwise xs)

theorem runInstalls_length : ∀ (n t : Nat) (bs : List Snapshot),
    (runInstalls n t bs).length = bs.length + n
  | 0, _, bs => rfl
  | n + 1, t, bs => by
    rw [runInstalls, runInstalls_length n (t + 1)]
    simp [installSnapshotStep]
    omega

/-- C8 counterexample: with retention N = 1, after N + 3 = 4 successive
successful installs of the same component starting from an empty backup area,
4 snapshots remain, not exactly N = 1 — no install path ever invokes the
pruning routine. -/
theorem claim_C8_counterexample :
    (runInstalls 4 0 []).length = 4 ∧ (runInstalls 4 0 []).length ≠ 1 := by
  decide

/-- C8 (amended): `cleanup_old_backups(keep_count)` itself does retain
exactly the `min keep_count (number of snapshots)` most recent snapshots by
creation time — the remaining snapshots are a sub-multiset of the original
and every removed snapshot's creation time is at most every kept one's — and
deletion failures are non-fatal; but the install flow never calls it, so
after N + 3 successive successful installs the backup store has grown by
exactly N + 3 snapshots and none have been pruned. -/
theorem claim_C8_retention (keep_count n t : Nat) (entries : List Snapshot)
    (hn : ∀ e ∈ entries, isBackupName e.1 = true) :
    ((UpdateChecker.cleanup_old_backups keep_count entries).length
        = min keep_count entries.length)
    ∧ (∃ removed,
        entries.Perm (UpdateChecker.cleanup_old_backups keep_count entries ++ removed)
        ∧ ∀ x ∈ UpdateChecker.cleanup_old_backups keep_count entries,
            ∀ y ∈ removed, y.2 ≤ x.2)
    ∧ (runInstalls (n + 3) t entries).length = entries.length + (n + 3) := by
  have hfilter : entries.filter (fun e => isBackupName e.1) = entries :=
    List.filter_eq_self.mpr hn
  have hperm : (sortCtimeDesc entries).Perm entries := sortCtimeDesc_perm entries
  refine ⟨?_, ?_, runInstalls_length (n + 3) t entries⟩
  · unfold UpdateChecker.cleanup_old_backups
    rw [hfilter, List.length_take, hperm.length_eq]
  · refine ⟨(sortCtimeDesc entries).drop keep_count, ?_, ?_⟩
    · unfold UpdateChecker.cleanup_old_backups
      rw [hfilter, List.take_append_drop]
      exact hperm.symm
    · intro x hx y hy
      have hpw := sortCtimeDesc_pairwise entries
      rw [← List.take_append_drop keep_count (sortCtimeDesc entries)] at hpw
      have := (List.pairwise_append.mp hpw).2.2
      unfold UpdateChecker.cleanup_old_backups at hx
      rw [hfilter] at hx
      exact this x hx y hy

/-- C8 witness: the amended claim at a concrete backup directory with
retention 2 over 3 snapshots. -/
theorem claim_C8_witness :
    ((UpdateChecker.cleanup_old_backups 2
        [(("backup_a"), 1), (("backup_b"), 3), (("backup_c"), 2)]).length
      = min 2 ([(("backup_a"), 1), (("backup_b"), 3), (("backup_c"), 2)] : List Snapshot).length)
    ∧ (∃ removed,
        ([(("backup_a"), 1), (("backup_b"), 3), (("backup_c"), 2)] : List Snapshot).Perm
          (UpdateChecker.cleanup_old_backups 2
            [(("backup_a"), 1), (("backup_b"), 3), (("backup_c"), 2)] ++ removed)
        ∧ ∀ x ∈ UpdateChecker.cleanup_old_backups 2
            [(("backup_a"), 1), (("backup_b"), 3), (("backup_c"), 2)],
            ∀ y ∈ removed, y.2 ≤ x.2)
    ∧ (runInstalls (1 + 3) 0
        [(("backup_a"), 1), (("backup_b"), 3), (("backup_c"), 2)]).length
      = ([(("backup_a"), 1), (("backup_b"), 3), (("backup_c"), 2)] : List Snapshot).length
          + (1 + 3) :=
  claim_C8_retention 2 1 0 [(("backup_a"), 1), (("backup_b"), 3), (("backup_c"), 2)]
    (by decide)

/-! ## Scheduler (auto_updater.py AutoUpdater) -/

/-- The auto-updater settings fields the scheduler reads.  Times are modelled
as integers (seconds); `last_update_check` is `none` when the stored value is
null or absent.  (A stored timestamp is always the well-formed `isoformat`
string the checker itself wrote, so the `except: return True` parse-failure
fallback does not arise and is not modelled.) -/
structure AutoSettings where
  auto_check_updates : Bool
  update_check_interval_hours : Nat
  last_update_check : Option Int
deriving DecidableEq

/-- `AutoUpdater.should_check_updates` (auto_updater.py lines 176-191): not
due when auto-check is disabled; due when no prior timestamp exists; else due
exactly when `now - last_check_time >= timedelta(hours=interval)`. -/
def AutoUpdater.should_check_updates (now : Int) (s : AutoSettings) : Bool :=
  if s.auto_check_updates = false then false
  else
    match s.last_update_check with
    | none => true
    | some t => decide ((s.update_check_interval_hours : Int) * 3600 ≤ now - t)

inductive CEvent where
  | checkStartedEmit
  | settingsSaved (last_update_check : Option Int)
  | networkCheck
  | completedEmit (hasUpdate : Bool)
deriving DecidableEq

/-- `AutoUpdater.check_for_app_updates` (auto_updater.py lines 210-232): emit
`update_check_started`; then, in the worker, store `datetime.now()` into
`settings["last_update_check"]` and save the settings file, then perform the
network check (`outcome` is `some hasUpdate` for a completed
`check_for_updates`, `none` when it raises), and finally emit
`update_check_completed` (`False` when the check raised).  The early return
for an uninitialised `update_manager` is not modelled: managers are
constructed in `__init__`. -/
def AutoUpdater.check_for_app_updates (now : Int) (outcome : Option Bool) (s : AutoSettings) :
    AutoSettings × List CEvent :=
  let s1 := { s with last_update_check := some now }
  (s1, [.checkStartedEmit, .settingsSaved s1.last_update_check, .networkCheck,
    .completedEmit (outcome.getD false)])

/-- Scan of a scheduler trace: a settings save storing `some now` as the
last-check timestamp occurs before the first network check. -/
def savedBeforeCheck (now : Int) : List CEvent → Bool
  | [] => true
  | .networkCheck :: _ => false
  | .settingsSaved t :: r => if t = some now then true else savedBeforeCheck now r
  | _ :: r => savedBeforeCheck now r

/-- C9: a check is due exactly when auto-check is enabled and either no prior
last-check timestamp exists or the elapsed time since it is at least the
configured interval; and every check attempt, whatever the network check's
outcome (success, "no update", or an exception), stores the new last-check
timestamp into the settings before performing the network check. -/
theorem claim_C9_schedule (now : Int) (s : AutoSettings) :
    (AutoUpdater.should_check_updates now s = true
      ↔ s.auto_check_updates = true
        ∧ (s.last_update_check = none
          ∨ ∃ t, s.last_update_check = some t
              ∧ (s.update_check_interval_hours : Int) * 3600 ≤ now - t))
    ∧ ∀ outcome : Option Bool,
        (AutoUpdater.check_for_app_updates now outcome s).1.last_update_check = some now
        ∧ CEvent.networkCheck ∈ (AutoUpdater.check_for_app_updates now outcome s).2
        ∧ savedBeforeCheck now (AutoUpdater.check_for_app_updates now outcome s).2 = true := by
  constructor
  · cases hc : s.auto_check_updates
    · simp [AutoUpdater.should_check_updates, hc]
    · cases hl : s.last_update_check with
      | none => simp [AutoUpdater.should_check_updates, hc, hl]
      | some t => simp [AutoUpdater.should_check_updates, hc, hl]
  · intro outcome
    refine ⟨rfl, ?_, ?_⟩
    · simp [AutoUpdater.check_for_app_updates]
    · simp [AutoUpdater.check_for_app_updates, savedBeforeCheck]

/-! ## Batch sync (model_sync.py ModelSyncManager.sync_models_async) -/

inductive SEvent where
  | syncStartedEmit
  | processingEmit (name : String)
  | modelAttempt (name : String) (ok : Bool)
  | lastSyncSaved (success : Bool)
  | progressDoneEmit
  | syncCompletedEmit
deriving DecidableEq

/-- The `last_sync.json` record written by
`ModelSyncManager.save_last_sync_info` (model_sync.py lines 472-484):
`models_synced` is the full list of registry keys (not the list actually
synced) and `success` is the literal `True`; the timestamp is not modelled. -/
structure LastSyncInfo where
  models_synced : List String
  success : Bool
deriving DecidableEq

/-- The worker body of `ModelSyncManager.sync_models_async` (model_sync.py
lines 431-470) run on an explicitly given (non-`None`) list of models.
`perModel` gives each `download_model` call's result; a `False` result only
`continue`s the loop, so every remaining model is still attempted.  An empty
list short-circuits (emitting completion without writing `last_sync.json`).
After the loop `save_last_sync_info` writes the record (with `success: True`
unconditionally) and `sync_completed` is emitted last. -/
def ModelSyncManager.sync_models (models : List String) (perModel : String → Bool)
    (registryKeys : List String) : List SEvent × Option LastSyncInfo :=
  if models.isEmpty then
    ([.syncStartedEmit, .progressDoneEmit, .syncCompletedEmit], none)
  else
    ([SEvent.syncStartedEmit]
      ++ (models.flatMap fun m => [SEvent.processingEmit m, SEvent.modelAttempt m (perModel m)])
      ++ [.lastSyncSaved true, .progressDoneEmit, .syncCompletedEmit],
     some { models_synced := registryKeys, success := true })

/-- C10: for a non-empty batch, every model in the list is attempted no
matter how the other attempts end, `sync_completed` is the final emitted
event, and the last-sync record is written with `success = True` even when
individual models failed. -/
theorem claim_C10_batch_failures_not_fatal (models : List String)
    (perModel : String → Bool) (registryKeys : List String) (h : models ≠ []) :
    (∀ m ∈ models, SEvent.modelAttempt m (perModel m)
        ∈ (ModelSyncManager.sync_models models perModel registryKeys).1)
    ∧ (ModelSyncManager.sync_models models perModel registryKeys).1.getLast?
        = some SEvent.syncCompletedEmit
    ∧ (ModelSyncManager.sync_models models perModel registryKeys).2
        = some { models_synced := registryKeys, success := true } := by
  have hne : models.isEmpty = false := by
    cases models with
    | nil => exact absurd rfl h
    | cons a l => rfl
  refine ⟨?_, ?_, ?_⟩
  · intro m hm
    simp only [ModelSyncManager.sync_models, hne, Bool.false_eq_true, if_false]
    refine List.mem_append.mpr (Or.inl (List.mem_append.mpr (Or.inr ?_)))
    exact List.mem_flatMap.mpr ⟨m, hm, by simp⟩
  · simp only [ModelSyncManager.sync_models, hne, Bool.false_eq_true, if_false]
    rw [List.getLast?_append_of_ne_nil]
    · rfl
    · simp
  · simp [ModelSyncManager.sync_models, hne]

/-- C10 witness: a two-model batch in which the second model fails: both are
attempted, the batch completes, and the record still says `success = True`. -/
theorem claim_C10_witness :
    (∀ m ∈ [("m1"), ("m2")], SEvent.modelAttempt m ((fun x => x == ("m1")) m)
        ∈ (ModelSyncManager.sync_models [("m1"), ("m2")] (fun x => x == ("m1"))
            [("m1"), ("m2")]).1)
    ∧ (ModelSyncManager.sync_models [("m1"), ("m2")] (fun x => x == ("m1"))
        [("m1"), ("m2")]).1.getLast? = some SEvent.syncCompletedEmit
    ∧ (ModelSyncManager.sync_models [("m1"), ("m2")] (fun x => x == ("m1"))
        [("m1"), ("m2")]).2
      = some { models_synced := [("m1"), ("m2")], success := true } :=
  claim_C10_batch_failures_not_fatal [("m1"), ("m2")] (fun x => x == ("m1"))
    [("m1"), ("m2")] (by decide)

end VoiceUpdate
